import Mathlib

/-!
Shallow embedding of `ext/c_helper/backsolve_cf.c`: a secant-method
backsolver for the discount spread (or the IRR) of a cash-flow stream.
C doubles are modelled as exact rationals for the spread variant and as
reals for the IRR variant (whose discounting uses a real power).
Arrays handed to the C core are modelled as functions `Nat -> Q` together
with an explicit entry count, mirroring the pointer/length convention of
the source; the host-boundary wrappers take lists, mirroring the Ruby
arrays they unmarshal.
-/

namespace CHelper

/-- Structured outcome of the secant core.  In the C source the three
cases are collapsed into one double: a genuine result `x_n`, the
sentinel -999.0 (degenerate step) or the sentinel -998.0
(non-convergence). -/
inductive SolveResult (K : Type) where
  | success (x : K)
  | degenerateStep
  | nonConvergence
deriving DecidableEq, Repr

/-- Embedding of the `ABS` macro: `(((x)<0.0) ? (-(x)) : (x))`. -/
def cabs {K : Type} [LinearOrderedField K] (x : K) : K :=
  if x < 0 then -x else x

/-- Embedding of the secant `while` loop shared by `_backsolve_cf` and
`_backsolve_irr` (lines 93-111 and 136-154 of the source), recursing on
the remaining trial budget `max_tries - trials` and also returning the
number of trials consumed.  The C loop is
`while (ABS(f_n) > res && trials < max_tries)`; inside it an exact
equality `f_n == f_n_minus_1` returns the degenerate sentinel, otherwise
the secant update runs and `trials` increments; after the loop,
`trials >= max_tries` returns the non-convergence sentinel and otherwise
`x_n` is returned. -/
def secantLoopT {K : Type} [LinearOrderedField K] (f : K → K) (res : K) :
    ℕ → K → K → K → K → SolveResult K × ℕ
  | 0, _, _, _, _ => (SolveResult.nonConvergence, 0)
  | fuel + 1, x_nm1, x_n, f_nm1, f_n =>
    if cabs f_n ≤ res then (SolveResult.success x_n, 0)
    else if f_n = f_nm1 then (SolveResult.degenerateStep, 0)
    else
      let x_np1 := x_n - f_n * (x_n - x_nm1) / (f_n - f_nm1)
      let r := secantLoopT f res fuel x_n x_np1 f_n (f x_np1)
      (r.1, r.2 + 1)

/-- Sentinel encoding used by the C core functions, which return either
the solved rate or one of the out-of-band doubles -999.0 / -998.0. -/
def collapse {K : Type} [LinearOrderedField K] : SolveResult K → K
  | SolveResult.success x => x
  | SolveResult.degenerateStep => -999
  | SolveResult.nonConvergence => -998

/-- Loop state of `_compute_pv` after the first `t` entries:
`(discount_factor, prev_cumul_date, cumul_pv)`, started at `(1, 0, 0)`.
Each entry adds `libor[t] + spread` to the period rate, divides the
discount factor by `1 + rate * (dates[t] - prev) / year_convention`, and
accumulates `cfs[t] * discount_factor`. -/
def pvState (cfs dates libor : ℕ → ℚ) (yc s : ℚ) : ℕ → ℚ × ℚ × ℚ
  | 0 => (1, 0, 0)
  | t + 1 =>
    let p := pvState cfs dates libor yc s t
    let df := p.1 / (1 + (libor t + s) * (dates t - p.2.1) / yc)
    (df, dates t, p.2.2 + cfs t * df)

/-- Embedding of `_compute_pv` (source lines 15-35): spread-adjusted
present value of the stream, with the accrued interest subtracted when
`is_clean`, and the sentinel -997.0 on an empty stream. -/
def compute_pv (cfs dates libor : ℕ → ℚ) (num_cfs : ℕ) (is_clean : Bool)
    (accrued_interest year_convention spread : ℚ) : ℚ :=
  if 0 < num_cfs then
    let pv := (pvState cfs dates libor year_convention spread num_cfs).2.2
    if is_clean then pv - accrued_interest else pv
  else
    -997

/-- Embedding of `_backsolve_cf` (source lines 82-112) with the
structured outcome and trial count kept visible: seeds
`x_n_minus_1 = 0.06`, `x_n = 0.06 + 0.0025`, objective
`f x = target_px - _compute_pv ... x`, then the shared secant loop with
trial budget `max_tries`. -/
def backsolveCfT (cfs dates libor : ℕ → ℚ) (num_cfs : ℕ)
    (target_px res : ℚ) (max_tries : ℤ) (is_clean : Bool)
    (accrued_interest year_convention : ℚ) : SolveResult ℚ × ℕ :=
  let f := fun x =>
    target_px - compute_pv cfs dates libor num_cfs is_clean
      accrued_interest year_convention x
  let x0 : ℚ := 0.06
  let x1 : ℚ := x0 + 0.0025
  secantLoopT f res max_tries.toNat x0 x1 (f x0) (f x1)

/-- The double actually returned by `_backsolve_cf`: the solved spread,
or -999.0 / -998.0 for the two failure cases. -/
def backsolve_cf_c (cfs dates libor : ℕ → ℚ) (num_cfs : ℕ)
    (target_px res : ℚ) (max_tries : ℤ) (is_clean : Bool)
    (accrued_interest year_convention : ℚ) : ℚ :=
  collapse (backsolveCfT cfs dates libor num_cfs target_px res max_tries
    is_clean accrued_interest year_convention).1

/-- Running sum of the loop of `_compute_pv_for_irr` after `t` entries:
each entry is discounted by `1 / (1 + irr) ^ ((dates t - dates 0) / 365)`
(real power, Actual/365, annual compounding referenced to the first
entry's day offset). -/
noncomputable def irrSum (cfs dates : ℕ → ℝ) (irr : ℝ) : ℕ → ℝ
  | 0 => 0
  | t + 1 =>
    irrSum cfs dates irr t +
      cfs t * (1 / (1 + irr) ^ ((dates t - dates 0) / 365 : ℝ))

/-- Embedding of `_compute_pv_for_irr` (source lines 47-68): flat-yield
present value with the accrued interest subtracted when `is_clean`, and
the sentinel -997.0 on an empty stream. -/
noncomputable def compute_pv_for_irr (cfs dates : ℕ → ℝ) (num_cfs : ℕ)
    (is_clean : Bool) (accrued_interest irr : ℝ) : ℝ :=
  if 0 < num_cfs then
    let pv := irrSum cfs dates irr num_cfs
    if is_clean then pv - accrued_interest else pv
  else
    -997

/-- Embedding of `_backsolve_irr` (source lines 124-155) with the
structured outcome and trial count kept visible: the target is fixed at
0.0 and the same seeds and secant loop as the spread variant are used. -/
noncomputable def backsolveIrrT (cfs dates : ℕ → ℝ) (num_cfs : ℕ)
    (res : ℝ) (max_tries : ℤ) (is_clean : Bool)
    (accrued_interest : ℝ) : SolveResult ℝ × ℕ :=
  let target_px : ℝ := 0
  let f := fun x =>
    target_px - compute_pv_for_irr cfs dates num_cfs is_clean
      accrued_interest x
  let x0 : ℝ := 0.06
  let x1 : ℝ := x0 + 0.0025
  secantLoopT f res max_tries.toNat x0 x1 (f x0) (f x1)

/-- The double actually returned by `_backsolve_irr`. -/
noncomputable def backsolve_irr_c (cfs dates : ℕ → ℝ) (num_cfs : ℕ)
    (res : ℝ) (max_tries : ℤ) (is_clean : Bool)
    (accrued_interest : ℝ) : ℝ :=
  collapse (backsolveIrrT cfs dates num_cfs res max_tries is_clean
    accrued_interest).1

/-- Outcome observed by the Ruby caller of the exported entry points:
either a float result or one of the raised exceptions. -/
inductive HostOutcome (K : Type) where
  | value (x : K)
  | errEmpty
  | errDates
  | errZeroDiv
  | errNoConverge
deriving DecidableEq, Repr

/-- Embedding of the date-validation loop of the exported wrappers
(source lines 196-207 and 270-281): walking the unmarshalled dates with
`prev_date` starting at 0.0, any entry `<=` the previous one aborts with
the monotonicity error. -/
def datesOk {K : Type} [LinearOrderedField K] (dates : List K) (prev : K) :
    Bool :=
  match dates with
  | [] => true
  | d :: ds => if d ≤ prev then false else datesOk ds d

/-- Sentinel decoding done by the exported wrappers on the core result
(source lines 224-233 and 295-302): -999.0 raises ZeroDivisionError,
-998.0 raises the convergence RuntimeError, anything else is wrapped as
a Ruby float. -/
def sentinelMap {K : Type} [LinearOrderedField K] (r : K) : HostOutcome K :=
  if r = -999 then HostOutcome.errZeroDiv
  else if r = -998 then HostOutcome.errNoConverge
  else HostOutcome.value r

/-- Embedding of the exported `backsolve_cf` wrapper (source lines
169-237): `num_cfs < 1` raises the empty-stream RuntimeError, the dates
are validated while unmarshalling, then the core runs and its sentinel
encoding is decoded.  Ruby arrays are read at indices `0 .. num_cfs-1`
as the C loop does. -/
def backsolve_cf_host (cfs dates libor : List ℚ) (num_cfs : ℤ)
    (target_px res : ℚ) (max_tries : ℤ) (is_clean : Bool)
    (accrued_interest year_convention : ℚ) : HostOutcome ℚ :=
  if num_cfs < 1 then HostOutcome.errEmpty
  else if datesOk (dates.take num_cfs.toNat) 0 = false then
    HostOutcome.errDates
  else
    sentinelMap (backsolve_cf_c (fun i => cfs.getD i 0)
      (fun i => dates.getD i 0) (fun i => libor.getD i 0) num_cfs.toNat
      target_px res max_tries is_clean accrued_interest year_convention)

/-- Embedding of the exported `backsolve_irr` wrapper (source lines
247-305), with the same validation and sentinel decoding as the spread
wrapper. -/
noncomputable def backsolve_irr_host (cfs dates : List ℝ) (num_cfs : ℤ)
    (res : ℝ) (max_tries : ℤ) (is_clean : Bool)
    (accrued_interest : ℝ) : HostOutcome ℝ :=
  if num_cfs < 1 then HostOutcome.errEmpty
  else if datesOk (dates.take num_cfs.toNat) 0 = false then
    HostOutcome.errDates
  else
    sentinelMap (backsolve_irr_c (fun i => cfs.getD i 0)
      (fun i => dates.getD i 0) num_cfs.toNat
      res max_tries is_clean accrued_interest)

/-- Cumulative discount factor of the spread model as the specification
states it: the product over entries `i ≤ t` of
`1 / (1 + (referenceRate i + spread) * (dayOffset i - previousDayOffset) / yearConvention)`,
with the previous day offset of entry 0 being 0. -/
def specDiscount (dates libor : ℕ → ℚ) (yc s : ℚ) (i : ℕ) : ℚ :=
  1 / (1 + (libor i + s) * (dates i - (if i = 0 then 0 else dates (i - 1))) / yc)

/-- Present value of a stream as the specification describes the spread
model: accumulate `amount t` times the cumulative discount factor, then
subtract the accrued interest exactly when the clean flag is set. -/
def compute_pv_spec (cfs dates libor : ℕ → ℚ) (num_cfs : ℕ)
    (is_clean : Bool) (accrued_interest year_convention spread : ℚ) : ℚ :=
  (∑ t in Finset.range num_cfs,
      cfs t * ∏ i in Finset.range (t + 1),
        specDiscount dates libor year_convention spread i) -
    (if is_clean then accrued_interest else 0)

/-- Present value of a stream as the specification describes the IRR
model: `amount t / (1 + yield) ^ ((dayOffset t - dayOffset 0) / 365)`,
summed over all entries, with the accrued interest subtracted exactly
when the clean flag is set. -/
noncomputable def compute_pv_for_irr_spec (cfs dates : ℕ → ℝ)
    (num_cfs : ℕ) (is_clean : Bool) (accrued_interest irr : ℝ) : ℝ :=
  (∑ t in Finset.range num_cfs,
      cfs t * (1 / (1 + irr) ^ ((dates t - dates 0) / 365 : ℝ))) -
    (if is_clean then accrued_interest else 0)

/-! Helper lemmas. -/

theorem cabs_eq_abs {K : Type} [LinearOrderedField K] (x : K) : cabs x = |x| := by
  unfold cabs
  rcases lt_or_le x 0 with h | h
  · rw [if_pos h, abs_of_neg h]
  · rw [if_neg (not_lt.mpr h), abs_of_nonneg h]

theorem secantLoopT_trials_le {K : Type} [LinearOrderedField K] (f : K → K)
    (res : K) :
    ∀ (fuel : ℕ) (x0 x1 f0 f1 : K),
      (secantLoopT f res fuel x0 x1 f0 f1).2 ≤ fuel := by
  intro fuel
  induction fuel with
  | zero =>
    intro x0 x1 f0 f1
    simp [secantLoopT]
  | succ m ih =>
    intro x0 x1 f0 f1
    simp only [secantLoopT]
    by_cases h1 : cabs f1 ≤ res
    · rw [if_pos h1]
      simp
    · rw [if_neg h1]
      by_cases h2 : f1 = f0
      · rw [if_pos h2]
        simp
      · rw [if_neg h2]
        exact Nat.add_le_add_right (ih _ _ _ _) 1

theorem secantLoopT_nonConv_iff {K : Type} [LinearOrderedField K] (f : K → K)
    (res : K) :
    ∀ (fuel : ℕ) (x0 x1 f0 f1 : K),
      (secantLoopT f res fuel x0 x1 f0 f1).1 = SolveResult.nonConvergence ↔
        (secantLoopT f res fuel x0 x1 f0 f1).2 = fuel := by
  intro fuel
  induction fuel with
  | zero =>
    intro x0 x1 f0 f1
    simp [secantLoopT]
  | succ m ih =>
    intro x0 x1 f0 f1
    simp only [secantLoopT]
    by_cases h1 : cabs f1 ≤ res
    · rw [if_pos h1]
      simp
    · rw [if_neg h1]
      by_cases h2 : f1 = f0
      · rw [if_pos h2]
        simp
      · rw [if_neg h2]
        constructor
        · intro h
          have hm := (ih _ _ _ _).mp h
          omega
        · intro h
          exact (ih _ _ _ _).mpr (by omega)

theorem secantLoopT_success_sound {K : Type} [LinearOrderedField K]
    (f : K → K) (res : K) :
    ∀ (fuel : ℕ) (x0 x1 f0 f1 x : K), f1 = f x1 →
      (secantLoopT f res fuel x0 x1 f0 f1).1 = SolveResult.success x →
      cabs (f x) ≤ res := by
  intro fuel
  induction fuel with
  | zero =>
    intro x0 x1 f0 f1 x hf h
    simp [secantLoopT] at h
  | succ m ih =>
    intro x0 x1 f0 f1 x hf h
    simp only [secantLoopT] at h
    by_cases h1 : cabs f1 ≤ res
    · rw [if_pos h1] at h
      have hh : SolveResult.success x1 = SolveResult.success x := h
      have hx : x1 = x := by injection hh
      subst hx
      rw [← hf]
      exact h1
    · rw [if_neg h1] at h
      by_cases h2 : f1 = f0
      · rw [if_pos h2] at h
        exact absurd h (by simp)
      · rw [if_neg h2] at h
        exact ih _ _ _ _ _ rfl h

theorem pvState_closed (cfs dates libor : ℕ → ℚ) (yc s : ℚ) :
    ∀ n : ℕ,
      pvState cfs dates libor yc s n =
        (∏ i in Finset.range n, specDiscount dates libor yc s i,
         if n = 0 then 0 else dates (n - 1),
         ∑ t in Finset.range n,
           cfs t * ∏ i in Finset.range (t + 1),
             specDiscount dates libor yc s i) := by
  intro n
  induction n with
  | zero => simp [pvState]
  | succ m ih =>
    simp only [pvState, ih, Finset.prod_range_succ, Finset.sum_range_succ]
    refine Prod.ext ?_ (Prod.ext ?_ ?_)
    · show (∏ i in Finset.range m, specDiscount dates libor yc s i) /
        (1 + (libor m + s) * (dates m - if m = 0 then 0 else dates (m - 1)) / yc) = _
      rw [div_eq_mul_one_div]
      rfl
    · simp
    · show _ + cfs m * ((∏ i in Finset.range m, specDiscount dates libor yc s i) /
        (1 + (libor m + s) * (dates m - if m = 0 then 0 else dates (m - 1)) / yc)) = _
      rw [div_eq_mul_one_div]
      rfl

theorem irrSum_closed (cfs dates : ℕ → ℝ) (irr : ℝ) :
    ∀ n : ℕ,
      irrSum cfs dates irr n =
        ∑ t in Finset.range n,
          cfs t * (1 / (1 + irr) ^ ((dates t - dates 0) / 365 : ℝ)) := by
  intro n
  induction n with
  | zero => simp [irrSum]
  | succ m ih => simp only [irrSum, ih, Finset.sum_range_succ]

theorem datesOk_iff_chain {K : Type} [LinearOrderedField K] :
    ∀ (l : List K) (prev : K),
      datesOk l prev = true ↔ List.Chain (· < ·) prev l := by
  intro l
  induction l with
  | nil =>
    intro p
    simp [datesOk]
  | cons d ds ih =>
    intro p
    by_cases h : d ≤ p
    · simp [datesOk, h, List.chain_cons, not_lt.mpr h]
    · simp [datesOk, h, List.chain_cons, ih, not_le.mp h]

theorem compute_pv_for_irr_single (cfs dates : ℕ → ℝ) (clean : Bool)
    (ai y : ℝ) :
    compute_pv_for_irr cfs dates 1 clean ai y =
      cfs 0 - (if clean then ai else 0) := by
  have hs : irrSum cfs dates y 1 = cfs 0 := by
    simp [irrSum, sub_self, zero_div, Real.rpow_zero]
  unfold compute_pv_for_irr
  rw [if_pos Nat.one_pos]
  simp only [hs]
  cases clean <;> simp

/-! Claim theorems. -/

/-- C1 (amended): the secant solver stops with success, returning the
current trial point `x_n`, as soon as `cabs f_n <= res` provided the
trial budget is not yet exhausted; it signals non-convergence exactly
when the trial counter reaches `max_tries`, even when the final
`max_tries`-th iteration brought the residual within tolerance. -/
theorem claim_C1_amended {K : Type} [LinearOrderedField K] (f : K → K)
    (res : K) (fuel : ℕ) (x0 x1 f0 f1 : K) :
    (0 < fuel → cabs f1 ≤ res →
      secantLoopT f res fuel x0 x1 f0 f1 = (SolveResult.success x1, 0))
    ∧ ((secantLoopT f res fuel x0 x1 f0 f1).1 = SolveResult.nonConvergence ↔
        (secantLoopT f res fuel x0 x1 f0 f1).2 = fuel) := by
  constructor
  · intro hfuel h
    obtain ⟨m, rfl⟩ : ∃ m, fuel = m + 1 := ⟨fuel - 1, by omega⟩
    simp only [secantLoopT]
    rw [if_pos h]
  · exact secantLoopT_nonConv_iff f res fuel x0 x1 f0 f1

/-- C1 (witness): concrete instance of the amended claim. -/
theorem claim_C1_witness :
    0 < 1 ∧ cabs (0 : ℚ) ≤ 0 ∧
      secantLoopT (fun x : ℚ => x) 0 1 0 0 1 0 =
        (SolveResult.success 0, 0) := by
  refine ⟨by norm_num, by norm_num [cabs], ?_⟩
  exact (claim_C1_amended (fun x : ℚ => x) 0 1 0 0 1 0).1 (by norm_num)
    (by norm_num [cabs])

/-- C1 (counterexample): a single-cash-flow stream, target `2000/21`,
tolerance 1 and `max_tries = 1`.  The first secant iteration moves to
`419/8400`, whose residual is within the tolerance, yet the solver
reports non-convergence because the trial counter has reached
`max_tries`; the claim says such an iteration is reported as success. -/
theorem claim_C1_counterexample :
    backsolveCfT (fun _ => 100) (fun _ => 365) (fun _ => 0) 1
        (2000 / 21) 1 1 false 0 365 = (SolveResult.nonConvergence, 1)
    ∧ (0.0625 -
        ((2000 : ℚ) / 21 - compute_pv (fun _ => 100) (fun _ => 365)
          (fun _ => 0) 1 false 0 365 0.0625) * ((0.0625 : ℚ) - 0.06) /
        (((2000 : ℚ) / 21 - compute_pv (fun _ => 100) (fun _ => 365)
          (fun _ => 0) 1 false 0 365 0.0625) -
         ((2000 : ℚ) / 21 - compute_pv (fun _ => 100) (fun _ => 365)
          (fun _ => 0) 1 false 0 365 0.06))) = 419 / 8400
    ∧ cabs ((2000 : ℚ) / 21 - compute_pv (fun _ => 100) (fun _ => 365)
        (fun _ => 0) 1 false 0 365 (419 / 8400)) ≤ 1 := by
  refine ⟨?_, ?_, ?_⟩
  · norm_num [backsolveCfT, secantLoopT, compute_pv, pvState, cabs]
  · norm_num [compute_pv, pvState]
  · norm_num [compute_pv, pvState, cabs]

/-- C2 (amended): whenever the spread backsolver succeeds on the
round-trip target `compute_pv(stream, s)`, the returned spread has an
objective residual within the supplied tolerance.  (Success itself is
not guaranteed; see the counterexample.) -/
theorem claim_C2_amended (cfs dates libor : ℕ → ℚ) (n : ℕ) (s res : ℚ)
    (mt : ℤ) (clean : Bool) (ai yc x : ℚ)
    (h : (backsolveCfT cfs dates libor n
        (compute_pv cfs dates libor n clean ai yc s) res mt clean ai
        yc).1 = SolveResult.success x) :
    cabs (compute_pv cfs dates libor n clean ai yc s -
        compute_pv cfs dates libor n clean ai yc x) ≤ res := by
  simp only [backsolveCfT] at h
  exact secantLoopT_success_sound
    (fun t => compute_pv cfs dates libor n clean ai yc s -
      compute_pv cfs dates libor n clean ai yc t) res mt.toNat
    0.06 (0.06 + 0.0025) _ _ x rfl h

/-- C2 (witness): concrete round-trip instance in which the solver does
succeed and the amended claim applies. -/
theorem claim_C2_witness :
    (backsolveCfT (fun _ => 100) (fun _ => 365) (fun _ => 0) 1
        (compute_pv (fun _ => 100) (fun _ => 365) (fun _ => 0) 1 false 0
          365 0.0625) 0 1 false 0 365).1 = SolveResult.success 0.0625
    ∧ cabs (compute_pv (fun _ => 100) (fun _ => 365) (fun _ => 0) 1
        false 0 365 0.0625 -
        compute_pv (fun _ => 100) (fun _ => 365) (fun _ => 0) 1 false 0
          365 0.0625) ≤ 0 := by
  have h : (backsolveCfT (fun _ => 100) (fun _ => 365) (fun _ => 0) 1
      (compute_pv (fun _ => 100) (fun _ => 365) (fun _ => 0) 1 false 0
        365 0.0625) 0 1 false 0 365).1 = SolveResult.success 0.0625 := by
    norm_num [backsolveCfT, secantLoopT, compute_pv, pvState, cabs]
  exact ⟨h, claim_C2_amended _ _ _ 1 0.0625 0 1 false 0 365 0.0625 h⟩

/-- C2 (counterexample): a valid one-entry stream and spread `s = 1`.
With tolerance 0 and `max_tries = 1` the spread backsolver run on the
round-trip target `compute_pv(stream, 1)` reports non-convergence
instead of succeeding, so the unconditional round-trip claim fails. -/
theorem claim_C2_counterexample :
    (backsolveCfT (fun _ => 100) (fun _ => 365) (fun _ => 0) 1
        (compute_pv (fun _ => 100) (fun _ => 365) (fun _ => 0) 1 false 0
          365 1) 0 1 false 0 365).1 = SolveResult.nonConvergence := by
  norm_num [backsolveCfT, secantLoopT, compute_pv, pvState, cabs]

/-- C3: for every non-empty stream the spread-model present value
computed by the loop of `_compute_pv` equals the specification value:
the accumulated `amount[t]` times the cumulative discount factor
(product of the per-period factors with previous day offset starting at
0), with accrued interest subtracted exactly when the clean flag is
set. -/
theorem claim_C3 (cfs dates libor : ℕ → ℚ) (n : ℕ) (clean : Bool)
    (ai yc s : ℚ) (h : 0 < n) :
    compute_pv cfs dates libor n clean ai yc s =
      compute_pv_spec cfs dates libor n clean ai yc s := by
  unfold compute_pv compute_pv_spec
  rw [if_pos h, pvState_closed]
  cases clean <;> simp

/-- C3 (witness): concrete instance of the claim. -/
theorem claim_C3_witness :
    0 < 1 ∧
      compute_pv (fun _ => 100) (fun _ => 365) (fun _ => 0) 1 true 2 365
          0.0625 =
        compute_pv_spec (fun _ => 100) (fun _ => 365) (fun _ => 0) 1
          true 2 365 0.0625 :=
  ⟨Nat.one_pos,
    claim_C3 (fun _ => 100) (fun _ => 365) (fun _ => 0) 1 true 2 365
      0.0625 Nat.one_pos⟩

/-- C4: for every non-empty stream the IRR-model present value computed
by the loop of `_compute_pv_for_irr` equals the specification value:
the sum of `amount[t] / (1 + yield) ^ ((dayOffset[t] - dayOffset[0]) / 365)`,
with accrued interest subtracted exactly when the clean flag is set. -/
theorem claim_C4 (cfs dates : ℕ → ℝ) (n : ℕ) (clean : Bool)
    (ai irr : ℝ) (h : 0 < n) :
    compute_pv_for_irr cfs dates n clean ai irr =
      compute_pv_for_irr_spec cfs dates n clean ai irr := by
  unfold compute_pv_for_irr compute_pv_for_irr_spec
  rw [if_pos h, irrSum_closed]
  cases clean <;> simp

/-- C4 (witness): concrete instance of the claim. -/
theorem claim_C4_witness :
    0 < 2 ∧
      compute_pv_for_irr (fun _ => 100) (fun i => 365 * (i + 1)) 2 false
          0 0.05 =
        compute_pv_for_irr_spec (fun _ => 100) (fun i => 365 * (i + 1))
          2 false 0 0.05 :=
  ⟨Nat.zero_lt_two,
    claim_C4 (fun _ => 100) (fun i => 365 * (i + 1)) 2 false 0 0.05
      Nat.zero_lt_two⟩

/-- C8: every solve invocation terminates after at most `max_tries`
secant iterations: the trial counters of both backsolvers are bounded
by the (clamped) iteration cap, for every input. -/
theorem claim_C8 (cfs dates libor : ℕ → ℚ) (n : ℕ) (target res : ℚ)
    (mt : ℤ) (clean : Bool) (ai yc : ℚ) (cfsR datesR : ℕ → ℝ) (nR : ℕ)
    (resR : ℝ) (mtR : ℤ) (cleanR : Bool) (aiR : ℝ) :
    (backsolveCfT cfs dates libor n target res mt clean ai yc).2 ≤
        mt.toNat
    ∧ (backsolveIrrT cfsR datesR nR resR mtR cleanR aiR).2 ≤
        mtR.toNat := by
  constructor
  · exact secantLoopT_trials_le _ _ _ _ _ _ _
  · exact secantLoopT_trials_le _ _ _ _ _ _ _

theorem secantLoopT_degenerate {K : Type} [LinearOrderedField K]
    (f : K → K) (res : K) (fuel : ℕ) (x0 x1 f0 f1 : K)
    (hfuel : 0 < fuel) (hres : res < cabs f1) (heq : f1 = f0) :
    (secantLoopT f res fuel x0 x1 f0 f1).1 =
      SolveResult.degenerateStep := by
  obtain ⟨m, rfl⟩ : ∃ m, fuel = m + 1 := ⟨fuel - 1, by omega⟩
  simp only [secantLoopT]
  rw [if_neg (not_le.mpr hres), if_pos heq]

/-- C5 (amended): exact equality of two consecutive residuals makes the
solver signal a degenerate step, provided the residual check has failed
(`res < cabs f_n`) and the trial cap is not yet reached; in particular a
stream whose present value is constant in the trial spread signals a
degenerate step on the first iteration whenever the initial residual
exceeds the tolerance and `max_tries >= 1`.  (When the residual is
already within tolerance the solver instead stops with success; see the
counterexample.) -/
theorem claim_C5_amended {K : Type} [LinearOrderedField K] :
    (∀ (f : K → K) (res : K) (fuel : ℕ) (x0 x1 f0 f1 : K),
        0 < fuel → res < cabs f1 → f1 = f0 →
        (secantLoopT f res fuel x0 x1 f0 f1).1 =
          SolveResult.degenerateStep)
    ∧ (∀ (cfs dates libor : ℕ → ℚ) (n : ℕ) (target res2 : ℚ) (mt : ℤ)
        (clean : Bool) (ai yc : ℚ),
        1 ≤ mt →
        (∀ x y : ℚ, compute_pv cfs dates libor n clean ai yc x =
          compute_pv cfs dates libor n clean ai yc y) →
        res2 < cabs (target -
          compute_pv cfs dates libor n clean ai yc (0.06 + 0.0025)) →
        (backsolveCfT cfs dates libor n target res2 mt clean ai yc).1 =
          SolveResult.degenerateStep) := by
  constructor
  · exact fun f res fuel x0 x1 f0 f1 =>
      secantLoopT_degenerate f res fuel x0 x1 f0 f1
  · intro cfs dates libor n target res2 mt clean ai yc hmt hconst hres
    simp only [backsolveCfT]
    exact secantLoopT_degenerate _ _ _ _ _ _ _ (by omega) hres
      (by rw [hconst (0.06 + 0.0025) 0.06])

/-- C5 (witness): concrete instance of the amended claim. -/
theorem claim_C5_witness :
    (0 : ℚ) < cabs (1 : ℚ) ∧
      (secantLoopT (fun x : ℚ => x) 0 1 0 0 1 1).1 =
        SolveResult.degenerateStep := by
  refine ⟨by norm_num [cabs], ?_⟩
  exact (claim_C5_amended (K := ℚ)).1 (fun x => x) 0 1 0 0 1 1
    (by norm_num) (by norm_num [cabs]) rfl

/-- C5 (counterexample): an all-zero-amount stream (present value
constant in the trial spread) with target 0 and tolerance 0: the solver
stops with success at the seed instead of signalling a degenerate step
on the first iteration, because the initial residual is already within
tolerance. -/
theorem claim_C5_counterexample :
    (backsolveCfT (fun _ => 0) (fun _ => 365) (fun _ => 0) 1 0 0 5 false
        0 365).1 = SolveResult.success 0.0625 := by
  norm_num [backsolveCfT, secantLoopT, compute_pv, pvState, cabs]

/-- C6 (amended): for a shape-valid stream the wrapper reports the two
failure sentinels as the distinguishable ZeroDivisionError and
convergence RuntimeError, and reports a solved rate as a numeric result
provided that rate differs from both sentinel values -999.0 and -998.0.
(A genuinely solved rate equal to a sentinel is misreported as the
corresponding failure; see the counterexample.) -/
theorem claim_C6_amended (cfs dates libor : List ℚ) (n : ℤ)
    (target res : ℚ) (mt : ℤ) (clean : Bool) (ai yc : ℚ)
    (h1 : 1 ≤ n) (h2 : datesOk (dates.take n.toNat) 0 = true) :
    ((backsolveCfT (fun i => cfs.getD i 0) (fun i => dates.getD i 0)
        (fun i => libor.getD i 0) n.toNat target res mt clean ai yc).1 =
        SolveResult.degenerateStep →
      backsolve_cf_host cfs dates libor n target res mt clean ai yc =
        HostOutcome.errZeroDiv)
    ∧ ((backsolveCfT (fun i => cfs.getD i 0) (fun i => dates.getD i 0)
        (fun i => libor.getD i 0) n.toNat target res mt clean ai yc).1 =
        SolveResult.nonConvergence →
      backsolve_cf_host cfs dates libor n target res mt clean ai yc =
        HostOutcome.errNoConverge)
    ∧ (∀ x : ℚ,
        (backsolveCfT (fun i => cfs.getD i 0) (fun i => dates.getD i 0)
          (fun i => libor.getD i 0) n.toNat target res mt clean ai
          yc).1 = SolveResult.success x → x ≠ -999 → x ≠ -998 →
        backsolve_cf_host cfs dates libor n target res mt clean ai yc =
          HostOutcome.value x) := by
  have hhost : backsolve_cf_host cfs dates libor n target res mt clean
      ai yc =
      sentinelMap (collapse (backsolveCfT (fun i => cfs.getD i 0)
        (fun i => dates.getD i 0) (fun i => libor.getD i 0) n.toNat
        target res mt clean ai yc).1) := by
    unfold backsolve_cf_host backsolve_cf_c
    rw [if_neg (by omega), if_neg (by simp [h2])]
  refine ⟨?_, ?_, ?_⟩
  · intro hr
    rw [hhost, hr]
    norm_num [collapse, sentinelMap]
  · intro hr
    rw [hhost, hr]
    norm_num [collapse, sentinelMap]
  · intro x hr hx1 hx2
    rw [hhost, hr]
    simp only [collapse]
    unfold sentinelMap
    rw [if_neg hx1, if_neg hx2]

/-- C6 (witness): a solved rate distinct from both sentinels is handed
to the caller as a numeric result. -/
theorem claim_C6_witness :
    (1 : ℤ) ≤ 1 ∧ datesOk (([365] : List ℚ).take (1 : ℤ).toNat) 0 = true
    ∧ backsolve_cf_host [100] [365] [0] 1
        (compute_pv (fun i => ([100] : List ℚ).getD i 0)
          (fun i => ([365] : List ℚ).getD i 0)
          (fun i => ([0] : List ℚ).getD i 0) 1 false 0 365 0.0625)
        0 1 false 0 365 = HostOutcome.value 0.0625 := by
  refine ⟨le_refl 1, by norm_num [datesOk], ?_⟩
  refine (claim_C6_amended [100] [365] [0] 1 _ 0 1 false 0 365
    (le_refl 1) (by norm_num [datesOk])).2.2 0.0625 ?_ (by norm_num)
    (by norm_num)
  norm_num [backsolveCfT, secantLoopT, compute_pv, pvState, cabs]

/-- C6 (counterexample): a shape-valid two-entry stream engineered so
that the secant iteration genuinely converges to exactly -999.0 (the
residual there is 0, within the tolerance, with trials below the cap),
yet the caller sees a ZeroDivisionError rather than the solved rate:
the sentinel encoding is not faithful. -/
theorem claim_C6_counterexample :
    (backsolveCfT (fun i => ([1, -899198 / 1693703] : List ℚ).getD i 0)
        (fun i => ([365, 730] : List ℚ).getD i 0)
        (fun i => ([0, 0] : List ℚ).getD i 0) 2 (-1698 / 1693703) 0 5
        false 0 365).1 = SolveResult.success (-999)
    ∧ backsolve_cf_host [1, -899198 / 1693703] [365, 730] [0, 0] 2
        (-1698 / 1693703) 0 5 false 0 365 = HostOutcome.errZeroDiv := by
  constructor
  · norm_num [backsolveCfT, secantLoopT, compute_pv, pvState, cabs]
  · norm_num [backsolve_cf_host, backsolve_cf_c, backsolveCfT,
      secantLoopT, compute_pv, pvState, cabs, datesOk, sentinelMap,
      collapse]

/-- C7 (amended): at both entry points the stream-shape preconditions
are checked at the boundary: an entry count below 1 raises the
empty-stream error, and day offsets that are not strictly increasing
starting above 0 raise the monotonicity error; when the shape checks
pass, the numeric core runs and its sentinel-decoded result is
returned, regardless of the values of the residual tolerance and the
iteration cap (those two preconditions are not checked; see the
counterexample). -/
theorem claim_C7_amended (cfs dates libor : List ℚ) (n : ℤ)
    (target res : ℚ) (mt : ℤ) (clean : Bool) (ai yc : ℚ)
    (cfsR datesR : List ℝ) (nR : ℤ) (resR : ℝ) (mtR : ℤ) (cleanR : Bool)
    (aiR : ℝ) :
    (n < 1 →
      backsolve_cf_host cfs dates libor n target res mt clean ai yc =
        HostOutcome.errEmpty)
    ∧ (1 ≤ n → ¬ List.Chain (· < ·) 0 (dates.take n.toNat) →
      backsolve_cf_host cfs dates libor n target res mt clean ai yc =
        HostOutcome.errDates)
    ∧ (1 ≤ n → List.Chain (· < ·) 0 (dates.take n.toNat) →
      backsolve_cf_host cfs dates libor n target res mt clean ai yc =
        sentinelMap (backsolve_cf_c (fun i => cfs.getD i 0)
          (fun i => dates.getD i 0) (fun i => libor.getD i 0) n.toNat
          target res mt clean ai yc))
    ∧ (nR < 1 →
      backsolve_irr_host cfsR datesR nR resR mtR cleanR aiR =
        HostOutcome.errEmpty)
    ∧ (1 ≤ nR → ¬ List.Chain (· < ·) 0 (datesR.take nR.toNat) →
      backsolve_irr_host cfsR datesR nR resR mtR cleanR aiR =
        HostOutcome.errDates)
    ∧ (1 ≤ nR → List.Chain (· < ·) 0 (datesR.take nR.toNat) →
      backsolve_irr_host cfsR datesR nR resR mtR cleanR aiR =
        sentinelMap (backsolve_irr_c (fun i => cfsR.getD i 0)
          (fun i => datesR.getD i 0) nR.toNat resR mtR cleanR aiR)) := by
  refine ⟨?_, ?_, ?_, ?_, ?_, ?_⟩
  · intro hn
    unfold backsolve_cf_host
    rw [if_pos hn]
  · intro hn hchain
    have hdo : datesOk (dates.take n.toNat) 0 = false := by
      cases hdk : datesOk (dates.take n.toNat) 0
      · rfl
      · exact absurd ((datesOk_iff_chain _ _).mp hdk) hchain
    unfold backsolve_cf_host
    rw [if_neg (by omega), if_pos hdo]
  · intro hn hchain
    unfold backsolve_cf_host
    rw [if_neg (by omega),
      if_neg (by simp [(datesOk_iff_chain _ _).mpr hchain])]
  · intro hn
    unfold backsolve_irr_host
    rw [if_pos hn]
  · intro hn hchain
    have hdo : datesOk (datesR.take nR.toNat) 0 = false := by
      cases hdk : datesOk (datesR.take nR.toNat) 0
      · rfl
      · exact absurd ((datesOk_iff_chain _ _).mp hdk) hchain
    unfold backsolve_irr_host
    rw [if_neg (by omega), if_pos hdo]
  · intro hn hchain
    unfold backsolve_irr_host
    rw [if_neg (by omega),
      if_neg (by simp [(datesOk_iff_chain _ _).mpr hchain])]

/-- C7 (witness): a shape-valid stream reaches the numeric core. -/
theorem claim_C7_witness :
    (1 : ℤ) ≤ 1 ∧ List.Chain (· < ·) 0 (([365] : List ℚ).take
        (1 : ℤ).toNat) ∧
      backsolve_cf_host [100] [365] [0] 1 50 1 5 false 0 365 =
        sentinelMap (backsolve_cf_c
          (fun i => ([100] : List ℚ).getD i 0)
          (fun i => ([365] : List ℚ).getD i 0)
          (fun i => ([0] : List ℚ).getD i 0) (1 : ℤ).toNat 50 1 5 false
          0 365) := by
  have hchain : List.Chain (· < ·) 0 (([365] : List ℚ).take
      (1 : ℤ).toNat) := by
    simp [List.chain_cons]
  exact ⟨le_refl 1, hchain,
    (claim_C7_amended [100] [365] [0] 1 50 1 5 false 0 365 [] [] 1 0 1
      false 0).2.2.1 (le_refl 1) hchain⟩

/-- C7 (counterexample): a negative residual tolerance (violating the
stated precondition `residualTolerance >= 0`) is not rejected at the
boundary: the wrapper runs the numeric core, which exhausts its trials
and reports the convergence failure instead of an input-validation
failure. -/
theorem claim_C7_counterexample :
    backsolve_cf_host [100] [365] [0] 1 (1600 / 17) (-1) 1 false 0 365 =
      HostOutcome.errNoConverge := by
  norm_num [backsolve_cf_host, backsolve_cf_c, backsolveCfT, secantLoopT,
    compute_pv, pvState, cabs, datesOk, sentinelMap, collapse]

/-- C9: on a single-entry stream the IRR-model present value equals the
sole amount (minus accrued interest when clean) for every trial yield
above -1, because the only exponent is 0; consequently with a positive
iteration cap the IRR backsolver signals a degenerate step when the
residual of that constant value exceeds the tolerance, and otherwise
returns the second seed 0.0625. -/
theorem claim_C9 (cfs dates : ℕ → ℝ) (res : ℝ) (mt : ℤ) (clean : Bool)
    (ai : ℝ) (hmt : 1 ≤ mt) :
    (∀ y : ℝ, -1 < y →
        compute_pv_for_irr cfs dates 1 clean ai y =
          cfs 0 - (if clean then ai else 0))
    ∧ (res < cabs (cfs 0 - (if clean then ai else 0)) →
        (backsolveIrrT cfs dates 1 res mt clean ai).1 =
          SolveResult.degenerateStep)
    ∧ (cabs (cfs 0 - (if clean then ai else 0)) ≤ res →
        (backsolveIrrT cfs dates 1 res mt clean ai).1 =
          SolveResult.success 0.0625) := by
  obtain ⟨m, hm⟩ : ∃ m, mt.toNat = m + 1 := ⟨mt.toNat - 1, by omega⟩
  refine ⟨fun y _ => compute_pv_for_irr_single cfs dates clean ai y,
    ?_, ?_⟩
  · intro hres
    simp only [backsolveIrrT, compute_pv_for_irr_single, hm]
    have hc : ¬ cabs ((0 : ℝ) -
        (cfs 0 - (if clean then ai else 0))) ≤ res := by
      rw [zero_sub, cabs_eq_abs, abs_neg, ← cabs_eq_abs]
      exact not_le.mpr hres
    simp only [secantLoopT]
    rw [if_neg hc]
    simp
  · intro hres
    simp only [backsolveIrrT, compute_pv_for_irr_single, hm]
    have hc : cabs ((0 : ℝ) -
        (cfs 0 - (if clean then ai else 0))) ≤ res := by
      rw [zero_sub, cabs_eq_abs, abs_neg, ← cabs_eq_abs]
      exact hres
    simp only [secantLoopT]
    rw [if_pos hc]
    norm_num

/-- C9 (witness): concrete single-entry stream, residual exceeding the
tolerance, degenerate step signalled. -/
theorem claim_C9_witness :
    (1 : ℤ) ≤ 1 ∧
      (1 : ℝ) < cabs ((100 : ℝ) - (if false then 0 else 0)) ∧
      (backsolveIrrT (fun _ => 100) (fun _ => 365) 1 1 1 false 0).1 =
        SolveResult.degenerateStep := by
  refine ⟨le_refl 1, by norm_num [cabs], ?_⟩
  exact (claim_C9 (fun _ => 100) (fun _ => 365) 1 1 false 0
    (le_refl 1)).2.1 (by norm_num [cabs])

/-- C10: with at least one trial allowed, if the residual at the second
seed `0.06 + 0.0025 = 0.0625` is already within tolerance then both
backsolvers return exactly 0.0625 with zero trials consumed, i.e.
without performing any secant update or degenerate-slope check; nothing
is assumed about the residual at the first seed 0.06, which is never
tested for success. -/
theorem claim_C10 (cfs dates libor : ℕ → ℚ) (n : ℕ) (target res : ℚ)
    (mt : ℤ) (clean : Bool) (ai yc : ℚ) (cfsR datesR : ℕ → ℝ) (nR : ℕ)
    (resR : ℝ) (mtR : ℤ) (cleanR : Bool) (aiR : ℝ) (hmt : 1 ≤ mt)
    (hmtR : 1 ≤ mtR)
    (h : cabs (target -
        compute_pv cfs dates libor n clean ai yc 0.0625) ≤ res)
    (hR : cabs ((0 : ℝ) -
        compute_pv_for_irr cfsR datesR nR cleanR aiR 0.0625) ≤ resR) :
    backsolveCfT cfs dates libor n target res mt clean ai yc =
        (SolveResult.success 0.0625, 0)
    ∧ backsolveIrrT cfsR datesR nR resR mtR cleanR aiR =
        (SolveResult.success 0.0625, 0) := by
  constructor
  · obtain ⟨m, hm⟩ : ∃ m, mt.toNat = m + 1 := ⟨mt.toNat - 1, by omega⟩
    have e : (0.06 + 0.0025 : ℚ) = 0.0625 := by norm_num
    simp only [backsolveCfT, hm, e]
    simp only [secantLoopT]
    rw [if_pos h]
  · obtain ⟨m, hm⟩ : ∃ m, mtR.toNat = m + 1 := ⟨mtR.toNat - 1, by omega⟩
    have e : (0.06 + 0.0025 : ℝ) = 0.0625 := by norm_num
    simp only [backsolveIrrT, hm, e]
    simp only [secantLoopT]
    rw [if_pos hR]

/-- C10 (witness): concrete instance for both backsolvers. -/
theorem claim_C10_witness :
    backsolveCfT (fun _ => 100) (fun _ => 365) (fun _ => 0) 1
        (compute_pv (fun _ => 100) (fun _ => 365) (fun _ => 0) 1 false 0
          365 0.0625) 0 1 false 0 365 = (SolveResult.success 0.0625, 0)
    ∧ backsolveIrrT (fun _ => 0) (fun _ => 365) 1 0 1 false 0 =
        (SolveResult.success 0.0625, 0) :=
  claim_C10 (fun _ => 100) (fun _ => 365) (fun _ => 0) 1 _ 0 1 false 0
    365 (fun _ => 0) (fun _ => 365) 1 0 1 false 0 (le_refl 1)
    (le_refl 1) (by norm_num [cabs])
    (by norm_num [compute_pv_for_irr, irrSum, cabs])

end CHelper
